import Mathlib

/-!
Verification development for the maintenance-bot repository.

The definitions below are a shallow embedding of the Python sources:

* `app/services/google_api.py` — the requests/users Google-Sheets layer
  (`accept_request`, `complete_request`, `create_request_row`,
  `update_request_after_upload`, `delete_request_by_uuid`, the tenacity
  retry policy `google_api_retry`, and the `async` user-mutation methods);
* `app/handlers/request.py` — the `get_photo` / `skip_photo` creation saga;
* `app/services/user_service.py` — the TTL user cache;
* `app/services/notification_service.py` — the new-request notification.

The requests worksheet is modelled as a list of rows; a row is a record whose
fields correspond to the 12 sheet columns (1 identity, 2 status, 3 location,
4 issue_type, 5 photo_reference, 6 reporter_id, 7 reporter_name, 8 created_at,
9 assignee_id, 10 assignee_name, 11 accepted_at, 12 completed_at).  A cell
that can be empty is an `Option`; `gspread` returns `None` for such a cell.
Remote faults are injected through explicit parameters where a claim needs
them; `asyncio.Lock` serialisation is reflected by treating each guarded
operation as one atomic step on the store.
-/

namespace MaintenanceBot

/-- One row of the `requests` worksheet.  Field order follows the sheet
columns.  `status` is always written by the handlers (`creating`, `new`, ...)
so it is a plain `String`; cells that can be empty are `Option`s.
`assigneeId` holds the integer written by `accept_request` (column 9); an
empty cell reads back as `none`, and `int(None)` raises in Python. -/
structure Row where
  uuid : String
  status : String
  location : Option String
  issueType : Option String
  photo : Option String
  reporterId : Int
  reporterName : String
  createdAt : String
  assigneeId : Option Int
  assigneeName : Option String
  acceptedAt : Option String
  completedAt : Option String
  deriving DecidableEq, Repr

abbrev Store := List Row

/-- `worksheet.find(request_uuid, in_column=1)`: the first row whose identity
column equals `u`. -/
def findRow (s : Store) (u : String) : Option Row :=
  s.find? (fun r => r.uuid == u)

/-- `update_cell` calls aimed at the row returned by `find`: modify the first
row whose identity column equals `u`, leave everything else in place. -/
def modifyFirst (u : String) (f : Row → Row) : Store → Store
  | [] => []
  | r :: rs => if r.uuid == u then f r :: rs else r :: modifyFirst u f rs

/-- `delete_rows(cell.row)` on the row returned by `find`: remove the first
row whose identity column equals `u`. -/
def eraseFirst (u : String) : Store → Store
  | [] => []
  | r :: rs => if r.uuid == u then rs else r :: eraseFirst u rs

/-- Number of rows whose identity column equals `u`. -/
def countRows (u : String) (s : Store) : Nat :=
  s.countP (fun r => r.uuid == u)

/-- Status of the request `u` as observable in the store (`none` when no row
with that identity is present). -/
def statusAt (s : Store) (u : String) : Option String :=
  (findRow s u).map (fun r => r.status)

/-- Python truthiness of an `Optional[str]`: `None` and `""` are falsy.
`get_photo` tests the upload result with `if not photo_url`. -/
def pyTruthyStr : Option String → Bool
  | none => false
  | some s => s != ""

/-! ## `GoogleAPIService` request operations (`app/services/google_api.py`) -/

/-- The four `update_cell` writes of `accept_request` (columns 2, 9, 10,
11). -/
def acceptUpdate (userId : Int) (userName : String) (now : String) (row : Row) : Row :=
  { row with
    status := "in_progress",
    assigneeId := some userId,
    assigneeName := some userName,
    acceptedAt := some now }

/-- The two `update_cell` writes of `complete_request` (columns 2, 12). -/
def completeUpdate (now : String) (row : Row) : Row :=
  { row with status := "completed", completedAt := some now }

/-- The two `update_cell` writes of `update_request_after_upload`
(columns 2, 5). -/
def uploadUpdate (url : String) (row : Row) : Row :=
  { row with status := "new", photo := some url }

/-- `GoogleAPIService.accept_request`: find the row by uuid (not found →
`False`); read its status; a status other than `"new"` → `False` with no
write; otherwise write status `"in_progress"`, assignee id (col 9), assignee
name (col 10) and the accepted timestamp (col 11) and return `True`.
All of it runs under `self.lock`, so it is one atomic step here. -/
def acceptRequest (s : Store) (u : String) (userId : Int) (userName : String)
    (now : String) : Bool × Store :=
  match findRow s u with
  | none => (false, s)
  | some r =>
    if r.status ≠ "new" then (false, s)
    else (true, modifyFirst u (acceptUpdate userId userName now) s)

/-- `GoogleAPIService.complete_request`: find the row by uuid (not found →
`False`); read the status cell and `assignee_id = int(cell(row, 9).value)` —
on an empty assignee cell this is `int(None)`, which raises (the `except`
block logs and re-raises, modelled as `Except.error ()`); then status ≠
`"in_progress"` → `False`; assignee ≠ caller → `False`; otherwise write
status `"completed"` and the completed timestamp (col 12) and return
`True`. -/
def completeRequest (s : Store) (u : String) (userId : Int) (now : String) :
    Except Unit (Bool × Store) :=
  match findRow s u with
  | none => .ok (false, s)
  | some r =>
    match r.assigneeId with
    | none => .error ()
    | some assigneeId =>
      if r.status ≠ "in_progress" then .ok (false, s)
      else if assigneeId ≠ userId then .ok (false, s)
      else .ok (true, modifyFirst u (completeUpdate now) s)

/-- `GoogleAPIService.create_request_row`: `append_row` of the serialised
request (the header row of the sheet follows the schema order). -/
def createRequestRow (s : Store) (r : Row) : Store := s ++ [r]

/-- `GoogleAPIService.update_request_after_upload`: find the row by uuid;
when found, write status `"new"` (col 2) and the photo url (col 5); when not
found the `if cell:` guard silently does nothing. -/
def updateRequestAfterUpload (s : Store) (u : String) (url : String) : Store :=
  match findRow s u with
  | none => s
  | some _ => modifyFirst u (uploadUpdate url) s

/-- `GoogleAPIService.delete_request_by_uuid`: find the row by uuid and
delete it, returning `True`; not found → `False`.  Any exception raised
inside the `try` block is caught, logged, and turned into `False` — it is
never re-raised, so the retry wrapper never sees it.  `fault` injects such a
failure (store left unchanged). -/
def deleteRequestByUuid (s : Store) (u : String) (fault : Bool) : Bool × Store :=
  if fault then (false, s)
  else
    match findRow s u with
    | some _ => (true, eraseFirst u s)
    | none => (false, s)

/-! ## Creation saga (`app/handlers/request.py`) -/

/-- The data a `MaintenanceRequest` carries into the creation handlers
(status is assigned by the handler itself). -/
structure ReqData where
  uuid : String
  location : Option String
  issueType : Option String
  reporterId : Int
  reporterName : String
  createdAt : String
  deriving DecidableEq, Repr

/-- The row appended by `create_request_row` for request `q` with status
`st` (photo, assignee and the later timestamps start empty). -/
def rowOf (q : ReqData) (st : String) : Row :=
  { uuid := q.uuid, status := st, location := q.location,
    issueType := q.issueType, photo := none, reporterId := q.reporterId,
    reporterName := q.reporterName, createdAt := q.createdAt,
    assigneeId := none, assigneeName := none, acceptedAt := none,
    completedAt := none }

/-- `get_photo`: append the draft row with status `"creating"`; then the
Drive upload yields `uploadResult` (`None` on failure; `if not photo_url`
also treats `""` as failure and raises `RuntimeError`).  On a truthy url the
row is committed via `update_request_after_upload`; any exception in the
`try` block is caught by the handler, which rolls back with
`delete_request_by_uuid` (whose own failure is injected via `deleteFault`),
replies with an error message and returns normally.  The `Bool` is the
caller-visible outcome (success vs. handled failure); the handler never
propagates a fault.  Store writes other than the compensating delete are
modelled as succeeding. -/
def getPhoto (s : Store) (q : ReqData) (uploadResult : Option String)
    (deleteFault : Bool) : Store × Bool :=
  let s1 := createRequestRow s (rowOf q "creating")
  if pyTruthyStr uploadResult then
    (updateRequestAfterUpload s1 q.uuid (uploadResult.getD ""), true)
  else
    (((deleteRequestByUuid s1 q.uuid deleteFault).2), false)

/-- `skip_photo`: the request is appended directly with status `"new"`;
there is a single remote step and no compensation path. -/
def skipPhoto (s : Store) (q : ReqData) : Store × Bool :=
  (createRequestRow s (rowOf q "new"), true)

/-! ## Retry policy (`google_api_retry`, `app/services/google_api.py`) -/

/-- The exceptions a wrapped remote call can raise:
`requests.exceptions.RequestException`, a `gspread` `APIError` carrying an
HTTP status code, or anything else. -/
inductive GFault where
  | requestException
  | apiError (statusCode : Nat)
  | otherError
  deriving DecidableEq, Repr

/-- `is_retryable_gspread_error`: an `APIError` whose response status code is
`>= 500`. -/
def isRetryableGspreadError : GFault → Bool
  | .apiError c => 500 ≤ c
  | _ => false

/-- The retry predicate of `google_api_retry`:
`retry_if_exception_type(RequestException) | retry_if_exception(is_retryable_gspread_error)`. -/
def isRetryableFault (e : GFault) : Bool :=
  (match e with | .requestException => true | _ => false) || isRetryableGspreadError e

/-- What the wrapped call ultimately raises: either an exception propagated
as-is, or tenacity's `RetryError` wrapping the final attempt's exception
(`reraise` is left at its default `False`). -/
inductive Raised where
  | direct (e : GFault)
  | retryError (last : GFault)
  deriving DecidableEq, Repr

/-- Classification of what reaches the caller: a `RetryError` is neither a
`RequestException` nor an `APIError`, so it is terminal (never retried by an
enclosing `google_api_retry`). -/
def raisedIsTransient : Raised → Bool
  | .direct e => isRetryableFault e
  | .retryError _ => false

/-- Tenacity's attempt loop for `google_api_retry`.  `f n` is the outcome of
the `n`-th call of the wrapped operation (1-indexed).  `fuel` is the number
of retries still allowed before `stop_after_attempt maxAttempts` would fire;
when it reaches `0`, a retryable failure is wrapped in `RetryError`.  The
result also reports how many attempts were made.  The backoff delays
(`wait_exponential(multiplier=2, min=2, max=30)`) do not affect the
value-level outcome and are not modelled. -/
def retryLoop {α : Type} (f : Nat → Except GFault α) (maxAttempts : Nat) :
    Nat → Nat → Except Raised α × Nat
  | 0, attempt =>
    (match f attempt with
     | .ok a => (.ok a, attempt)
     | .error e =>
       if isRetryableFault e then (.error (.retryError e), attempt)
       else (.error (.direct e), attempt))
  | fuel + 1, attempt =>
    match f attempt with
    | .ok a => (.ok a, attempt)
    | .error e =>
      if isRetryableFault e then
        if maxAttempts ≤ attempt then (.error (.retryError e), attempt)
        else retryLoop f maxAttempts fuel (attempt + 1)
      else (.error (.direct e), attempt)

/-- `google_api_retry` applied to a remote operation whose `n`-th attempt
behaves as `f n`: `stop_after_attempt(5)`, first attempt is number 1. -/
def googleApiRetryRun {α : Type} (f : Nat → Except GFault α) : Except Raised α × Nat :=
  retryLoop f 5 4 1

/-! ## User directory cache (`app/services/user_service.py`) -/

/-- A row of the `users` worksheet, as parsed into the `User` model. -/
structure UserRec where
  telegramId : Int
  name : String
  role : String
  deriving DecidableEq, Repr

/-- The mutable fields of `UserService`, plus a ghost counter of how many
directory fetches (`get_users_worksheet().get_all_records()`) have been
attempted. -/
structure UserCacheState where
  cache : Option (List UserRec)
  ts : Nat
  fetches : Nat
  deriving DecidableEq, Repr

/-- `UserService.get_all_users`.  `now` is `time.time()`; `fetch` is the
outcome of the guarded directory fetch (`none` when it raises).  A valid
cache (`cache is not None and now - ts < ttl`) is returned as-is with no
fetch.  Otherwise the fetch is attempted: on success the snapshot and
timestamp are replaced; on failure the previous snapshot is returned when it
exists and `[]` otherwise — the `except` block swallows the exception, so
the function always returns.  (Python compares the signed age with the TTL;
`Nat` truncation at `now < ts` coincides with it for a positive TTL: both
sides take the cache hit.) -/
def getAllUsers (ttl : Nat) (st : UserCacheState) (now : Nat)
    (fetch : Option (List UserRec)) : List UserRec × UserCacheState :=
  match st.cache with
  | some c =>
    if now - st.ts < ttl then (c, st)
    else
      match fetch with
      | some recs => (recs, { cache := some recs, ts := now, fetches := st.fetches + 1 })
      | none => (c, { st with fetches := st.fetches + 1 })
  | none =>
    match fetch with
    | some recs => (recs, { cache := some recs, ts := now, fetches := st.fetches + 1 })
    | none => ([], { st with fetches := st.fetches + 1 })

/-- A Python coroutine object: calling an `async def` without awaiting it
creates one of these and runs none of its body. -/
structure PyCoroutine where
  name : String
  deriving DecidableEq, Repr

/-- Python truthiness of a coroutine object: always truthy. -/
def pyTruthyCoroutine (_ : PyCoroutine) : Bool := true

/-- `UserService.add_user` (a plain `def`): it calls the `async`
`GoogleAPIService.add_user` without `await`, so only a coroutine object is
created and the sheet append never executes (`remote` is unchanged); the
cache is then cleared unconditionally. -/
def userServiceAddUser (remote : List UserRec) (st : UserCacheState)
    (_user : UserRec) : List UserRec × UserCacheState :=
  let _coro : PyCoroutine := { name := "GoogleAPIService.add_user" }
  (remote, { st with cache := none, ts := 0 })

/-- `UserService.delete_user` (a plain `def`): `deleted =
self.google_api.delete_user(telegram_id)` binds the coroutine object of the
un-awaited `async` method — the sheet row is never removed.  `if deleted:`
tests the coroutine's truthiness, which is always `True`, so the cache is
cleared for every input, and the coroutine object itself is returned. -/
def userServiceDeleteUser (remote : List UserRec) (st : UserCacheState)
    (_telegramId : Int) : PyCoroutine × List UserRec × UserCacheState :=
  let deleted : PyCoroutine := { name := "GoogleAPIService.delete_user" }
  if pyTruthyCoroutine deleted then
    (deleted, remote, { st with cache := none, ts := 0 })
  else (deleted, remote, st)

/-- `UserService.update_user_name` (a plain `def`): same shape as
`delete_user` — the un-awaited coroutine is truthy, so the cache is cleared
for every input and the coroutine object is returned. -/
def userServiceUpdateUserName (remote : List UserRec) (st : UserCacheState)
    (_telegramId : Int) (_newName : String) :
    PyCoroutine × List UserRec × UserCacheState :=
  let updated : PyCoroutine := { name := "GoogleAPIService.update_user_name" }
  if pyTruthyCoroutine updated then
    (updated, remote, { st with cache := none, ts := 0 })
  else (updated, remote, st)

/-! ## Notification dispatch (`app/services/notification_service.py`) -/

/-- Telegram's per-message text length limit (characters). -/
def telegramMessageLimit : Nat := 4096

/-- How a Python f-string renders an `Optional[str]`: `None` prints as the
four characters `None`. -/
def pyStrOpt : Option String → String
  | none => "None"
  | some s => s

/-- The message text built by
`NotificationService.send_new_request_notification`: the exact f-string of
the source, with `str(request.request_uuid)[:8]` as `uuidStr.take 8` and the
already-formatted creation time passed in as `createdAtStr` (the output of
`_format_datetime`). -/
def renderNewRequestText (uuidStr : String) (location issueType : Option String)
    (reporterName : String) (createdAtStr : String) : String :=
  "🚨 **Новая заявка: #" ++ uuidStr.take 8 ++ "** 🚨\n\n" ++
  "📍 **Локация:** " ++ pyStrOpt location ++ "\n" ++
  "🔧 **Тип поломки:** " ++ pyStrOpt issueType ++ "\n" ++
  "👤 **Заявитель:** " ++ reporterName ++ "\n" ++
  "🕓 **Создана:** " ++ createdAtStr ++ "\n\n" ++
  "Статус: 🆕 Новый"

/-- `send_new_request_notification`: exactly one `bot.send_message` call with
the full rendered text — there is no length check and no chunking.  The
first component lists the texts handed to `send_message`, in order; the
second reports delivery (`sendFails` injects a `send_message` exception,
which the `except` block catches and logs, so the function still returns
normally). -/
def sendNewRequestNotification (uuidStr : String)
    (location issueType : Option String) (reporterName createdAtStr : String)
    (sendFails : Bool) : List String × Bool :=
  let text := renderNewRequestText uuidStr location issueType reporterName createdAtStr
  ([text], !sendFails)

/-! ## Operation traces for the request state machine -/

/-- One coordinator operation, with the outcomes of its external effects as
parameters (`uploadResult`: the Drive upload; `deleteFault`/`fault`: an
exception inside the compensating delete). -/
inductive Op where
  | createWithPhoto (q : ReqData) (uploadResult : Option String) (deleteFault : Bool)
  | createWithoutPhoto (q : ReqData)
  | acceptReq (u : String) (userId : Int) (userName : String) (now : String)
  | completeReq (u : String) (userId : Int) (now : String)
  | rollbackDelete (u : String) (fault : Bool)
  deriving Repr

/-- The store left behind by a `complete_request` call: unchanged when the
call returns `False` or raises (the raised `TypeError` of an empty assignee
cell mutates nothing); rewritten on success. -/
def completeStore (s : Store) (u : String) (userId : Int) (now : String) : Store :=
  match completeRequest s u userId now with
  | .ok (_, s') => s'
  | .error _ => s

/-- Run one operation: the final store, together with the store as it stands
after each guarded remote mutation (the lock is released between the saga's
create and its commit/rollback, so both intermediate stores are observable
by other guarded operations). -/
def opRun (s : Store) : Op → Store × List Store
  | .createWithPhoto q up df =>
    let s1 := createRequestRow s (rowOf q "creating")
    let s2 := if pyTruthyStr up then updateRequestAfterUpload s1 q.uuid (up.getD "")
              else (deleteRequestByUuid s1 q.uuid df).2
    (s2, [s1, s2])
  | .createWithoutPhoto q =>
    let s1 := (skipPhoto s q).1
    (s1, [s1])
  | .acceptReq u userId userName now =>
    let s1 := (acceptRequest s u userId userName now).2
    (s1, [s1])
  | .completeReq u userId now =>
    let s1 := completeStore s u userId now
    (s1, [s1])
  | .rollbackDelete u fault =>
    let s1 := (deleteRequestByUuid s u fault).2
    (s1, [s1])

/-- The store after an operation. -/
def applyOp (s : Store) (o : Op) : Store := (opRun s o).1

/-- The store after a sequence of operations. -/
def runOps (s : Store) (ops : List Op) : Store := ops.foldl applyOp s

/-- Record an observation of request `u`: append its current status when the
row is present and the status differs from the last recorded one (absence
records nothing; an unchanged status records nothing). -/
def pushObs (u : String) (seq : List String) (s : Store) : List String :=
  match statusAt s u with
  | none => seq
  | some st => if seq.getLast? = some st then seq else seq ++ [st]

/-- Fold a trace: run the operations from store `s`, recording the status of
`u` after every guarded remote mutation. -/
def traceAux (u : String) : Store → List String → List Op → List String
  | _, seq, [] => seq
  | s, seq, o :: rest =>
    traceAux u (opRun s o).1 (((opRun s o).2).foldl (pushObs u) seq) rest

/-- The sequence of distinct statuses observed for request `u` along a run of
`ops` from the empty store. -/
def observedStatuses (u : String) (ops : List Op) : List String :=
  traceAux u [] [] ops

/-- How many operations of `ops` create a row with identity `u`.  A uuid is
assigned by `uuid4()` at `MaintenanceRequest` construction and a request is
never re-created with the same identity, so real runs have at most one. -/
def createsFor (u : String) : List Op → Nat
  | [] => 0
  | .createWithPhoto q _ _ :: rest => (if q.uuid = u then 1 else 0) + createsFor u rest
  | .createWithoutPhoto q :: rest => (if q.uuid = u then 1 else 0) + createsFor u rest
  | _ :: rest => createsFor u rest

/-- The status chain of the specification. -/
def statusChain : List String := ["creating", "new", "in_progress", "completed"]

/-! ## Store lemmas -/

theorem countRows_nil (u : String) : countRows u [] = 0 := rfl

theorem countRows_cons (u : String) (r : Row) (rs : Store) :
    countRows u (r :: rs) = (if r.uuid == u then 1 else 0) + countRows u rs := by
  simp [countRows, List.countP_cons]
  split <;> omega

theorem findRow_cons (u : String) (r : Row) (rs : Store) :
    findRow (r :: rs) u = if r.uuid == u then some r else findRow rs u := by
  simp only [findRow, List.find?]
  by_cases hx : (r.uuid == u) = true
  · simp [hx]
  · simp [Bool.of_not_eq_true hx]

theorem findRow_eq_none_of_countRows_eq_zero {u : String} {s : Store}
    (h : countRows u s = 0) : findRow s u = none := by
  induction s with
  | nil => rfl
  | cons r rs ih =>
    rw [countRows_cons] at h
    rw [findRow_cons]
    by_cases hx : (r.uuid == u) = true
    · rw [hx] at h
      simp at h
    · rw [Bool.of_not_eq_true hx] at h ⊢
      simpa using ih (by simpa using h)

theorem countRows_eq_zero_of_findRow_eq_none {u : String} {s : Store}
    (h : findRow s u = none) : countRows u s = 0 := by
  induction s with
  | nil => rfl
  | cons r rs ih =>
    rw [findRow_cons] at h
    rw [countRows_cons]
    by_cases hx : (r.uuid == u) = true
    · rw [hx] at h
      simp at h
    · rw [Bool.of_not_eq_true hx] at h ⊢
      simpa using ih (by simpa using h)

theorem findRow_append_some {u : String} {s : Store} {r : Row} (t : Store)
    (h : findRow s u = some r) : findRow (s ++ t) u = some r := by
  induction s with
  | nil => simp [findRow] at h
  | cons x xs ih =>
    rw [List.cons_append, findRow_cons]
    rw [findRow_cons] at h
    by_cases hx : (x.uuid == u) = true
    · rw [hx] at h ⊢
      simpa using h
    · rw [Bool.of_not_eq_true hx] at h ⊢
      simpa using ih (by simpa using h)

theorem findRow_append_none {u : String} {s : Store} (t : Store)
    (h : findRow s u = none) : findRow (s ++ t) u = findRow t u := by
  induction s with
  | nil => rfl
  | cons x xs ih =>
    rw [List.cons_append, findRow_cons]
    rw [findRow_cons] at h
    by_cases hx : (x.uuid == u) = true
    · rw [hx] at h
      simp at h
    · rw [Bool.of_not_eq_true hx] at h ⊢
      simpa using ih (by simpa using h)

theorem countRows_append (u : String) (s t : Store) :
    countRows u (s ++ t) = countRows u s + countRows u t := by
  simp [countRows, List.countP_append]

theorem countRows_singleton (u : String) (r : Row) :
    countRows u [r] = if r.uuid == u then 1 else 0 := by
  rw [show ([r] : Store) = r :: [] from rfl, countRows_cons, countRows_nil,
    Nat.add_zero]

theorem countRows_modifyFirst (u v : String) (f : Row → Row) (s : Store)
    (hf : ∀ r, (f r).uuid = r.uuid) :
    countRows u (modifyFirst v f s) = countRows u s := by
  induction s with
  | nil => rfl
  | cons r rs ih =>
    simp only [modifyFirst]
    by_cases hx : (r.uuid == v) = true
    · rw [if_pos hx, countRows_cons, countRows_cons, hf]
    · rw [if_neg (by simpa using hx), countRows_cons, countRows_cons, ih]

theorem findRow_modifyFirst_ne {u v : String} (f : Row → Row) (s : Store)
    (hf : ∀ r, (f r).uuid = r.uuid) (hne : v ≠ u) :
    findRow (modifyFirst v f s) u = findRow s u := by
  induction s with
  | nil => rfl
  | cons r rs ih =>
    simp only [modifyFirst]
    by_cases hx : (r.uuid == v) = true
    · rw [if_pos hx, findRow_cons, findRow_cons]
      have hru : r.uuid = v := by simpa using hx
      have h1 : ((f r).uuid == u) = false := by
        rw [hf, hru]
        simpa using hne
      have h2 : (r.uuid == u) = false := by
        rw [hru]
        simpa using hne
      rw [h1, h2]
      simp
    · rw [if_neg (by simpa using hx), findRow_cons, findRow_cons, ih]

theorem findRow_modifyFirst_self {u : String} {s : Store} {r : Row} (f : Row → Row)
    (hf : ∀ x, (f x).uuid = x.uuid) (h : findRow s u = some r) :
    findRow (modifyFirst u f s) u = some (f r) := by
  induction s with
  | nil => simp [findRow] at h
  | cons x xs ih =>
    rw [findRow_cons] at h
    simp only [modifyFirst]
    by_cases hx : (x.uuid == u) = true
    · rw [hx] at h
      simp only [if_true] at h
      rw [if_pos hx, findRow_cons]
      have : ((f x).uuid == u) = true := by
        rw [hf]
        exact hx
      have hxr : x = r := by simpa using h
      rw [this, hxr]
      simp
    · rw [Bool.of_not_eq_true hx] at h
      simp only [Bool.false_eq_true, if_false] at h
      rw [if_neg (by simpa using hx), findRow_cons, Bool.of_not_eq_true hx]
      simpa using ih h

theorem countRows_eraseFirst_ne (u v : String) (s : Store) (hne : v ≠ u) :
    countRows u (eraseFirst v s) = countRows u s := by
  induction s with
  | nil => rfl
  | cons r rs ih =>
    simp only [eraseFirst]
    by_cases hx : (r.uuid == v) = true
    · rw [if_pos hx, countRows_cons]
      have hru : r.uuid = v := by simpa using hx
      have : (r.uuid == u) = false := by
        rw [hru]
        simpa using hne
      rw [this]
      simp
    · rw [if_neg (by simpa using hx), countRows_cons, countRows_cons, ih]

theorem findRow_eraseFirst_ne {u v : String} (s : Store) (hne : v ≠ u) :
    findRow (eraseFirst v s) u = findRow s u := by
  induction s with
  | nil => rfl
  | cons r rs ih =>
    simp only [eraseFirst]
    by_cases hx : (r.uuid == v) = true
    · rw [if_pos hx, findRow_cons]
      have hru : r.uuid = v := by simpa using hx
      have : (r.uuid == u) = false := by
        rw [hru]
        simpa using hne
      rw [this]
      simp
    · rw [if_neg (by simpa using hx), findRow_cons, findRow_cons, ih]

theorem countRows_eraseFirst_self (u : String) (s : Store) :
    countRows u (eraseFirst u s) = countRows u s - 1 := by
  induction s with
  | nil => rfl
  | cons r rs ih =>
    simp only [eraseFirst]
    by_cases hx : (r.uuid == u) = true
    · rw [if_pos hx, countRows_cons, hx]
      simp
    · rw [if_neg (by simpa using hx), countRows_cons, countRows_cons,
        Bool.of_not_eq_true hx, ih]
      simp only [Bool.false_eq_true, if_false, Nat.zero_add]

/-! ## Concrete data used by witnesses and counterexamples -/

/-- A concrete request (the uuid is the opaque token `"r1"`). -/
def qEx : ReqData :=
  { uuid := "r1", location := some "Room 101", issueType := some "Electrical",
    reporterId := 42, reporterName := "Reporter", createdAt := "2026-01-01T00:00:00Z" }

/-- A concrete directory row. -/
def uEx : UserRec := { telegramId := 100, name := "Admin User", role := "admin" }

/-! ## Claim C2 -/

/-- Claim C2 (code bug): on a store whose only row has identity `"r1"`,
status `"new"` and an empty assignee cell, `complete_request("r1", 7)` does
not return `False`: it evaluates `int(cell(row, 9).value)` — `int(None)` —
before the status check, raising a `TypeError` that the `except` block logs
and re-raises.  The embedded code yields `Except.error ()` where the claim
(and §4.1 of the spec) requires the boolean `false`. -/
theorem complete_request_raises_on_unassigned_row :
    completeRequest [rowOf qEx "new"] "r1" 7 "2026-01-02T00:00:00Z" =
      .error () := by
  rfl

/-! ## Claim C10 -/

/-- Claim C10: the `UserService` mutators call the `async`
`GoogleAPIService` coroutines without awaiting them, so the remote directory
is never mutated; `delete_user` returns the coroutine object — truthy for
every `telegram_id`, matching rows or not — and the cache is invalidated
unconditionally (`update_user_name` behaves the same; `add_user` clears the
cache unconditionally as well). -/
theorem user_mutations_never_awaited (remote : List UserRec)
    (st : UserCacheState) (tid : Int) (user : UserRec) (newName : String) :
    pyTruthyCoroutine (userServiceDeleteUser remote st tid).1 = true ∧
    (userServiceDeleteUser remote st tid).2.1 = remote ∧
    (userServiceDeleteUser remote st tid).2.2.cache = none ∧
    (userServiceAddUser remote st user).1 = remote ∧
    (userServiceAddUser remote st user).2.cache = none ∧
    pyTruthyCoroutine (userServiceUpdateUserName remote st tid newName).1 = true ∧
    (userServiceUpdateUserName remote st tid newName).2.1 = remote ∧
    (userServiceUpdateUserName remote st tid newName).2.2.cache = none := by
  refine ⟨rfl, rfl, rfl, rfl, rfl, rfl, rfl, rfl⟩

/-! ## Claim C7 -/

/-- Claim C7: when the snapshot is absent or expired and the directory fetch
fails, `get_all_users` returns the previous snapshot if one exists and `[]`
otherwise; the `except Exception` block swallows the failure, so the
function returns normally in both cases (the embedding is total) and the
cached state is not modified (only the ghost fetch counter advances). -/
theorem user_cache_stale_fallback (ttl : Nat) (st : UserCacheState) (now : Nat)
    (hmiss : st.cache = none ∨ ttl ≤ now - st.ts) :
    getAllUsers ttl st now none =
      (st.cache.getD [], { st with fetches := st.fetches + 1 }) := by
  match hc : st.cache with
  | none => simp [getAllUsers, hc]
  | some c =>
    rcases hmiss with h | h
    · rw [hc] at h
      exact absurd h (by simp)
    · simp [getAllUsers, hc, Nat.not_lt.mpr h]

/-- Witness for C7 at a concrete state: snapshot present but expired, fetch
fails, the stale snapshot is returned. -/
theorem user_cache_stale_fallback_witness :
    getAllUsers 60 { cache := some [uEx], ts := 0, fetches := 3 } 100 none =
      ([uEx], { cache := some [uEx], ts := 0, fetches := 4 }) :=
  user_cache_stale_fallback 60 { cache := some [uEx], ts := 0, fetches := 3 } 100
    (Or.inr (by decide))

/-! ## Claim C9 -/

/-- A location string of 5000 characters, longer than any Telegram
message limit. -/
def longLocation : String := String.mk (List.replicate 5000 'a')

/-- Claim C9 (counterexample): for a request whose rendered notification text
exceeds Telegram's 4096-character per-message limit,
`send_new_request_notification` does not split the content — it hands the
whole text to a single `bot.send_message` call, so the one delivered message
is longer than the limit. -/
theorem notification_over_limit_counterexample :
    (sendNewRequestNotification "req-head" (some longLocation)
        (some "Electrical") "Reporter" "01.01.2026" false).1 =
      [renderNewRequestText "req-head" (some longLocation)
        (some "Electrical") "Reporter" "01.01.2026"] ∧
    telegramMessageLimit <
      (renderNewRequestText "req-head" (some longLocation)
        (some "Electrical") "Reporter" "01.01.2026").length := by
  constructor
  · rfl
  · have h5 : longLocation.length = 5000 := by
      show (List.replicate 5000 'a').length = 5000
      exact List.length_replicate 5000 'a'
    simp only [renderNewRequestText, pyStrOpt, String.length_append, h5,
      telegramMessageLimit]
    omega

/-- Claim C9 (amended): the dispatcher always sends the rendered content as
exactly one message, whatever its length; a `send_message` failure is caught
and logged (the function still returns), and no chunking is performed. -/
theorem notification_single_message (uuidStr : String)
    (location issueType : Option String) (reporterName createdAtStr : String)
    (sendFails : Bool) :
    (sendNewRequestNotification uuidStr location issueType reporterName
        createdAtStr sendFails).1 =
      [renderNewRequestText uuidStr location issueType reporterName createdAtStr] ∧
    (sendNewRequestNotification uuidStr location issueType reporterName
        createdAtStr sendFails).1.length = 1 ∧
    (sendNewRequestNotification uuidStr location issueType reporterName
        createdAtStr sendFails).2 = !sendFails :=
  ⟨rfl, rfl, rfl⟩

/-! ## Claim C6 -/

/-- Claim C6: while a snapshot exists and its age is below the TTL, two
`get_all_users` calls with no intervening mutation return the identical
snapshot and leave the state (including the ghost fetch counter) untouched —
no second fetch happens; and every `add_user` / `delete_user` /
`update_user_name` sets the snapshot to `none` immediately, so the next
`get_all_users` performs a fetch (counter +1) at any time and with any fetch
outcome, even though the old snapshot had not expired. -/
theorem user_cache_coherence (ttl : Nat) (st : UserCacheState)
    (c : List UserRec) (now1 now2 mnow : Nat) (f1 f2 mfetch : Option (List UserRec))
    (remote : List UserRec) (user : UserRec) (tid : Int) (newName : String)
    (hc : st.cache = some c) (h1 : now1 - st.ts < ttl) (h2 : now2 - st.ts < ttl) :
    (getAllUsers ttl st now1 f1 = (c, st) ∧
     getAllUsers ttl (getAllUsers ttl st now1 f1).2 now2 f2 = (c, st)) ∧
    ((userServiceAddUser remote st user).2.cache = none ∧
     (userServiceDeleteUser remote st tid).2.2.cache = none ∧
     (userServiceUpdateUserName remote st tid newName).2.2.cache = none ∧
     (getAllUsers ttl (userServiceAddUser remote st user).2 mnow mfetch).2.fetches =
       st.fetches + 1 ∧
     (getAllUsers ttl (userServiceDeleteUser remote st tid).2.2 mnow mfetch).2.fetches =
       st.fetches + 1 ∧
     (getAllUsers ttl (userServiceUpdateUserName remote st tid
         newName).2.2 mnow mfetch).2.fetches = st.fetches + 1) := by
  have hfirst : getAllUsers ttl st now1 f1 = (c, st) := by
    simp [getAllUsers, hc, h1]
  have hsecond : getAllUsers ttl st now2 f2 = (c, st) := by
    simp [getAllUsers, hc, h2]
  refine ⟨⟨hfirst, by rw [hfirst, hsecond]⟩, rfl, rfl, rfl, ?_, ?_, ?_⟩ <;>
    cases mfetch <;>
      simp [getAllUsers, userServiceAddUser, userServiceDeleteUser,
        userServiceUpdateUserName, pyTruthyCoroutine]

/-- Witness for C6 at a concrete state (fresh snapshot, two reads at times
110 and 120 against a timestamp of 100 with TTL 60, then mutations). -/
theorem user_cache_coherence_witness :
    ({ cache := some [uEx], ts := 100, fetches := 1 } : UserCacheState).cache =
      some [uEx] ∧
    (getAllUsers 60 { cache := some [uEx], ts := 100, fetches := 1 } 110 none =
       ([uEx], { cache := some [uEx], ts := 100, fetches := 1 }) ∧
     getAllUsers 60 (getAllUsers 60 { cache := some [uEx], ts := 100, fetches := 1 }
         110 none).2 120 none =
       ([uEx], { cache := some [uEx], ts := 100, fetches := 1 })) ∧
    ((userServiceAddUser [] { cache := some [uEx], ts := 100, fetches := 1 }
        uEx).2.cache = none ∧
     (userServiceDeleteUser [] { cache := some [uEx], ts := 100, fetches := 1 }
        100).2.2.cache = none ∧
     (userServiceUpdateUserName [] { cache := some [uEx], ts := 100, fetches := 1 }
        100 "New Name").2.2.cache = none ∧
     (getAllUsers 60 (userServiceAddUser []
         { cache := some [uEx], ts := 100, fetches := 1 } uEx).2 130 none).2.fetches =
       1 + 1 ∧
     (getAllUsers 60 (userServiceDeleteUser []
         { cache := some [uEx], ts := 100, fetches := 1 } 100).2.2 130
         none).2.fetches = 1 + 1 ∧
     (getAllUsers 60 (userServiceUpdateUserName []
         { cache := some [uEx], ts := 100, fetches := 1 } 100 "New Name").2.2 130
         none).2.fetches = 1 + 1) :=
  ⟨rfl, user_cache_coherence 60 { cache := some [uEx], ts := 100, fetches := 1 }
    [uEx] 110 120 130 none none none [] uEx 100 "New Name" rfl (by decide)
    (by decide)⟩

/-! ## Claim C1 -/

/-- Claim C1: with a row of identity `u` present, `accept_request` on a
`"new"` row returns `True` and rewrites exactly that row to status
`"in_progress"` with the caller as assignee (id, name) and an accepted
timestamp; on any other status it returns `False` and leaves the store
untouched.  Consequently two serial accepts of the same request settle the
race: the first caller wins and is recorded, the second gets `False` and
changes nothing (the `asyncio.Lock` serialises the two calls, so the serial
composition is the faithful model). -/
theorem accept_request_guarded_transition (s : Store) (u : String) (r : Row)
    (a1 a2 : Int) (n1 n2 t1 t2 : String) (hfind : findRow s u = some r) :
    (r.status = "new" →
       (acceptRequest s u a1 n1 t1).1 = true ∧
       findRow (acceptRequest s u a1 n1 t1).2 u = some (acceptUpdate a1 n1 t1 r) ∧
       (acceptUpdate a1 n1 t1 r).status = "in_progress" ∧
       (acceptUpdate a1 n1 t1 r).assigneeId = some a1 ∧
       (acceptUpdate a1 n1 t1 r).assigneeName = some n1 ∧
       (acceptUpdate a1 n1 t1 r).acceptedAt = some t1 ∧
       acceptRequest (acceptRequest s u a1 n1 t1).2 u a2 n2 t2 =
         (false, (acceptRequest s u a1 n1 t1).2)) ∧
    (r.status ≠ "new" → acceptRequest s u a1 n1 t1 = (false, s)) := by
  constructor
  · intro hnew
    have hstep : acceptRequest s u a1 n1 t1 =
        (true, modifyFirst u (acceptUpdate a1 n1 t1) s) := by
      simp [acceptRequest, hfind, hnew]
    have hfind' : findRow (modifyFirst u (acceptUpdate a1 n1 t1) s) u =
        some (acceptUpdate a1 n1 t1 r) :=
      findRow_modifyFirst_self _ (fun _ => rfl) hfind
    refine ⟨by rw [hstep], by rw [hstep]; exact hfind', rfl, rfl, rfl, rfl, ?_⟩
    rw [hstep]
    simp [acceptRequest, hfind', acceptUpdate]
  · intro hne
    simp [acceptRequest, hfind, hne]

/-- Witness for C1: a one-row store with a `"new"` request; actor 7 accepts
first, actor 9 second. -/
theorem accept_request_guarded_transition_witness :
    findRow [rowOf qEx "new"] "r1" = some (rowOf qEx "new") ∧
    (rowOf qEx "new").status = "new" ∧
    ((acceptRequest [rowOf qEx "new"] "r1" 7 "TechA" "t1").1 = true ∧
     findRow (acceptRequest [rowOf qEx "new"] "r1" 7 "TechA" "t1").2 "r1" =
       some (acceptUpdate 7 "TechA" "t1" (rowOf qEx "new")) ∧
     (acceptUpdate 7 "TechA" "t1" (rowOf qEx "new")).status = "in_progress" ∧
     (acceptUpdate 7 "TechA" "t1" (rowOf qEx "new")).assigneeId = some 7 ∧
     (acceptUpdate 7 "TechA" "t1" (rowOf qEx "new")).assigneeName = some "TechA" ∧
     (acceptUpdate 7 "TechA" "t1" (rowOf qEx "new")).acceptedAt = some "t1" ∧
     acceptRequest (acceptRequest [rowOf qEx "new"] "r1" 7 "TechA" "t1").2 "r1"
         9 "TechB" "t2" =
       (false, (acceptRequest [rowOf qEx "new"] "r1" 7 "TechA" "t1").2)) :=
  ⟨rfl, rfl,
    (accept_request_guarded_transition [rowOf qEx "new"] "r1" (rowOf qEx "new")
      7 9 "TechA" "TechB" "t1" "t2" rfl).1 rfl⟩

/-! ## Claim C3 -/

/-- Claim C3: for the create-with-photo saga on a store not yet containing
the request's identity: when the upload yields no usable photo reference
(`None`, or the falsy `""`), the handler's rollback deletes the draft row,
so no row with that identity remains; when the upload returns a non-empty
url and the commit update runs, the row is present with status `"new"` and
that url in the photo column. -/
theorem create_with_photo_saga_outcome (s : Store) (q : ReqData)
    (upload : Option String) (url : String)
    (hfresh : findRow s q.uuid = none) :
    (pyTruthyStr upload = false →
       findRow (getPhoto s q upload false).1 q.uuid = none ∧
       (getPhoto s q upload false).2 = false) ∧
    (url ≠ "" →
       findRow (getPhoto s q (some url) false).1 q.uuid =
         some (uploadUpdate url (rowOf q "creating")) ∧
       (uploadUpdate url (rowOf q "creating")).status = "new" ∧
       (uploadUpdate url (rowOf q "creating")).photo = some url ∧
       (getPhoto s q (some url) false).2 = true) := by
  have hzero : countRows q.uuid s = 0 := countRows_eq_zero_of_findRow_eq_none hfresh
  have hone : findRow (s ++ [rowOf q "creating"]) q.uuid = some (rowOf q "creating") := by
    rw [findRow_append_none _ hfresh, findRow_cons]
    simp [rowOf]
  have hcount1 : countRows q.uuid (s ++ [rowOf q "creating"]) = 1 := by
    rw [countRows_append, hzero, countRows_singleton]
    simp [rowOf]
  constructor
  · intro hfail
    constructor
    · simp only [getPhoto, createRequestRow, hfail, Bool.false_eq_true, if_false,
        deleteRequestByUuid, hone]
      apply findRow_eq_none_of_countRows_eq_zero
      rw [countRows_eraseFirst_self, hcount1]
    · simp [getPhoto, hfail]
  · intro hurl
    have htruthy : pyTruthyStr (some url) = true := by
      simp [pyTruthyStr, hurl]
    refine ⟨?_, rfl, rfl, by simp [getPhoto, htruthy]⟩
    simp only [getPhoto, createRequestRow, htruthy, if_true,
      updateRequestAfterUpload, hone, Option.getD_some]
    exact findRow_modifyFirst_self _ (fun _ => rfl) hone

/-- Witness for C3: the empty store, the concrete request `qEx`; both the
failing upload (rollback, no row left) and the successful one (row committed
with status `"new"` and the url). -/
theorem create_with_photo_saga_outcome_witness :
    findRow [] "r1" = none ∧
    (findRow (getPhoto [] qEx none false).1 "r1" = none ∧
     (getPhoto [] qEx none false).2 = false) ∧
    (findRow (getPhoto [] qEx (some "http://drive/x") false).1 "r1" =
       some (uploadUpdate "http://drive/x" (rowOf qEx "creating")) ∧
     (uploadUpdate "http://drive/x" (rowOf qEx "creating")).status = "new" ∧
     (uploadUpdate "http://drive/x" (rowOf qEx "creating")).photo =
       some "http://drive/x" ∧
     (getPhoto [] qEx (some "http://drive/x") false).2 = true) :=
  ⟨rfl,
   (create_with_photo_saga_outcome [] qEx none "http://drive/x" rfl).1 rfl,
   (create_with_photo_saga_outcome [] qEx none "http://drive/x" rfl).2
     (by decide)⟩

/-! ## Claim C8 -/

/-- Claim C8 (counterexample): when the upload fails and the compensating
delete itself fails, the saga's caller-visible outcome is byte-for-byte the
outcome of a successful rollback — the handler returns normally with the
same handled-failure result, so the delete failure is only logged, never
surfaced as a fault; meanwhile the orphaned `creating` row is still in the
store.  This refutes "surfaced as a fault to the caller of the saga":
`delete_request_by_uuid` catches every exception and returns `False`, and
`get_photo` ignores that return value. -/
theorem rollback_delete_failure_counterexample :
    (getPhoto [] qEx none true).2 = (getPhoto [] qEx none false).2 ∧
    (getPhoto [] qEx none true).2 = false ∧
    findRow (getPhoto [] qEx none true).1 "r1" = some (rowOf qEx "creating") ∧
    findRow (getPhoto [] qEx none false).1 "r1" = none := by
  refine ⟨rfl, rfl, rfl, rfl⟩

/-- Claim C8 (amended): when the compensating delete of the draft row fails,
the exception is caught inside `delete_request_by_uuid` (so the retry
wrapper never sees it — it is not retried at all) and reported only as a
logged error plus a `False` return value that `get_photo` discards; the saga
still returns its ordinary handled-failure outcome, no fault reaches the
saga's caller, and the orphaned `creating` row persists in the store,
requiring external cleanup. -/
theorem rollback_delete_failure_not_surfaced (s : Store) (q : ReqData)
    (hfresh : findRow s q.uuid = none) :
    getPhoto s q none true = (s ++ [rowOf q "creating"], false) ∧
    (deleteRequestByUuid (createRequestRow s (rowOf q "creating"))
        q.uuid true).1 = false ∧
    findRow (getPhoto s q none true).1 q.uuid = some (rowOf q "creating") := by
  have hone : findRow (s ++ [rowOf q "creating"]) q.uuid =
      some (rowOf q "creating") := by
    rw [findRow_append_none _ hfresh, findRow_cons]
    simp [rowOf]
  refine ⟨rfl, rfl, ?_⟩
  exact hone

/-- Witness for the amended C8 on the empty store. -/
theorem rollback_delete_failure_not_surfaced_witness :
    findRow [] "r1" = none ∧
    (getPhoto [] qEx none true = ([rowOf qEx "creating"], false) ∧
     (deleteRequestByUuid (createRequestRow [] (rowOf qEx "creating"))
         "r1" true).1 = false ∧
     findRow (getPhoto [] qEx none true).1 "r1" = some (rowOf qEx "creating")) :=
  ⟨rfl, rollback_delete_failure_not_surfaced [] qEx rfl⟩

/-! ## Claim C4 -/

/-- Claim C4: for any operation wrapped in `google_api_retry` —
(1) if the first `k < 5` attempts raise transient faults
(`RequestException`, or `APIError` with status ≥ 500) and attempt `k + 1`
succeeds, the call returns the success value after `k + 1` attempts;
(2) if the first 5 attempts all raise transient faults, exactly 5 attempts
are made and the last transient fault is re-raised to the caller wrapped in
tenacity's `RetryError` — itself terminal (never retryable);
(3) a non-transient fault on the first attempt propagates immediately, after
exactly one attempt, with no retry. -/
theorem google_api_retry_policy :
    (∀ (α : Type) (f : Nat → Except GFault α) (k : Nat) (v : α),
       k < 5 →
       (∀ i, 1 ≤ i → i ≤ k → ∃ e, f i = .error e ∧ isRetryableFault e = true) →
       f (k + 1) = .ok v →
       googleApiRetryRun f = (.ok v, k + 1)) ∧
    (∀ (α : Type) (f : Nat → Except GFault α) (e : Nat → GFault),
       (∀ i, 1 ≤ i → i ≤ 5 → f i = .error (e i) ∧ isRetryableFault (e i) = true) →
       googleApiRetryRun f = (.error (.retryError (e 5)), 5) ∧
       raisedIsTransient (.retryError (e 5)) = false) ∧
    (∀ (α : Type) (f : Nat → Except GFault α) (e : GFault),
       f 1 = .error e → isRetryableFault e = false →
       googleApiRetryRun f = (.error (.direct e), 1)) := by
  refine ⟨?_, ?_, ?_⟩
  · intro α f k v hk hfail hsucc
    interval_cases k
    · simp [googleApiRetryRun, retryLoop, hsucc]
    · obtain ⟨e1, he1, hr1⟩ := hfail 1 (by norm_num) (by norm_num)
      simp [googleApiRetryRun, retryLoop, he1, hr1, hsucc]
    · obtain ⟨e1, he1, hr1⟩ := hfail 1 (by norm_num) (by norm_num)
      obtain ⟨e2, he2, hr2⟩ := hfail 2 (by norm_num) (by norm_num)
      simp [googleApiRetryRun, retryLoop, he1, hr1, he2, hr2, hsucc]
    · obtain ⟨e1, he1, hr1⟩ := hfail 1 (by norm_num) (by norm_num)
      obtain ⟨e2, he2, hr2⟩ := hfail 2 (by norm_num) (by norm_num)
      obtain ⟨e3, he3, hr3⟩ := hfail 3 (by norm_num) (by norm_num)
      simp [googleApiRetryRun, retryLoop, he1, hr1, he2, hr2, he3, hr3, hsucc]
    · obtain ⟨e1, he1, hr1⟩ := hfail 1 (by norm_num) (by norm_num)
      obtain ⟨e2, he2, hr2⟩ := hfail 2 (by norm_num) (by norm_num)
      obtain ⟨e3, he3, hr3⟩ := hfail 3 (by norm_num) (by norm_num)
      obtain ⟨e4, he4, hr4⟩ := hfail 4 (by norm_num) (by norm_num)
      simp [googleApiRetryRun, retryLoop, he1, hr1, he2, hr2, he3, hr3, he4,
        hr4, hsucc]
  · intro α f e hfail
    have h1 := hfail 1 (by norm_num) (by norm_num)
    have h2 := hfail 2 (by norm_num) (by norm_num)
    have h3 := hfail 3 (by norm_num) (by norm_num)
    have h4 := hfail 4 (by norm_num) (by norm_num)
    have h5 := hfail 5 (by norm_num) (by norm_num)
    refine ⟨?_, rfl⟩
    simp [googleApiRetryRun, retryLoop, h1.1, h1.2, h2.1, h2.2, h3.1, h3.2,
      h4.1, h4.2, h5.1, h5.2]
  · intro α f e h1 hterm
    simp [googleApiRetryRun, retryLoop, h1, hterm]

/-- A remote call failing transiently twice, then succeeding. -/
def retryScenarioA : Nat → Except GFault Nat :=
  fun i => if i ≤ 2 then .error .requestException else .ok 42

/-- A remote call failing with HTTP 503 on every attempt. -/
def retryScenarioB : Nat → Except GFault Nat :=
  fun _ => .error (.apiError 503)

/-- A remote call failing terminally (HTTP 404) on the first attempt. -/
def retryScenarioC : Nat → Except GFault Nat :=
  fun _ => .error (.apiError 404)

/-- Witness for C4: the three scenarios at concrete inputs — success after
two transient failures (3 attempts), exhaustion after five 503s
(`RetryError`, terminal), immediate propagation of a 404 (1 attempt). -/
theorem google_api_retry_policy_witness :
    googleApiRetryRun retryScenarioA = (.ok 42, 3) ∧
    (googleApiRetryRun retryScenarioB =
       (.error (.retryError (.apiError 503)), 5) ∧
     raisedIsTransient (.retryError (.apiError 503)) = false) ∧
    googleApiRetryRun retryScenarioC = (.error (.direct (.apiError 404)), 1) :=
  ⟨google_api_retry_policy.1 Nat retryScenarioA 2 42 (by norm_num)
     (fun i h1 h2 => ⟨.requestException, by
        simp [retryScenarioA]
        omega, rfl⟩)
     (by simp [retryScenarioA]),
   google_api_retry_policy.2.1 Nat retryScenarioB (fun _ => .apiError 503)
     (fun i h1 h2 => ⟨rfl, rfl⟩),
   google_api_retry_policy.2.2 Nat retryScenarioC (.apiError 404) rfl rfl⟩

/-! ## Claim C5 — the status trace invariant

`okSeq` says that the distinct statuses observed for one request form a
prefix of `creating → new → in_progress → completed`, or a prefix of the
chain entered at `new` (requests committed in one step by `skip_photo` never
show `creating`).  `presentInv` enumerates the reachable (trace, current
status) pairs for a present row; `Inv` is the inductive invariant of a run:
either the request was never created, or it is present with a reachable
trace, or it was deleted with its trace frozen.  `budget` is the number of
create operations for this identity still ahead. -/

def okSeq (seq : List String) : Prop :=
  seq <+: statusChain ∨ seq <+: List.tail statusChain

def presentInv (seq : List String) (st : String) : Prop :=
  (seq = ["creating"] ∧ st = "creating") ∨
  (seq = ["creating", "new"] ∧ st = "new") ∨
  (seq = ["creating", "new", "in_progress"] ∧ st = "in_progress") ∨
  (seq = ["creating", "new", "in_progress", "completed"] ∧ st = "completed") ∨
  (seq = ["new"] ∧ st = "new") ∨
  (seq = ["new", "in_progress"] ∧ st = "in_progress") ∨
  (seq = ["new", "in_progress", "completed"] ∧ st = "completed")

def Inv (u : String) (budget : Nat) (s : Store) (seq : List String) : Prop :=
  (countRows u s = 0 ∧ seq = [] ∧ budget ≤ 1) ∨
  ((∃ r, findRow s u = some r ∧ countRows u s = 1 ∧ presentInv seq r.status) ∧
    budget = 0) ∨
  (countRows u s = 0 ∧ okSeq seq ∧ budget = 0)

theorem presentInv_getLast {seq : List String} {st : String}
    (h : presentInv seq st) : seq.getLast? = some st := by
  rcases h with ⟨rfl, rfl⟩ | ⟨rfl, rfl⟩ | ⟨rfl, rfl⟩ | ⟨rfl, rfl⟩ | ⟨rfl, rfl⟩ |
    ⟨rfl, rfl⟩ | ⟨rfl, rfl⟩ <;> rfl

theorem presentInv_ok {seq : List String} {st : String}
    (h : presentInv seq st) : okSeq seq := by
  rcases h with ⟨rfl, -⟩ | ⟨rfl, -⟩ | ⟨rfl, -⟩ | ⟨rfl, -⟩ | ⟨rfl, -⟩ |
    ⟨rfl, -⟩ | ⟨rfl, -⟩
  · exact Or.inl ⟨["new", "in_progress", "completed"], rfl⟩
  · exact Or.inl ⟨["in_progress", "completed"], rfl⟩
  · exact Or.inl ⟨["completed"], rfl⟩
  · exact Or.inl ⟨[], rfl⟩
  · exact Or.inr ⟨["in_progress", "completed"], rfl⟩
  · exact Or.inr ⟨["completed"], rfl⟩
  · exact Or.inr ⟨[], rfl⟩

theorem presentInv_new_cases {seq : List String} (h : presentInv seq "new") :
    seq = ["creating", "new"] ∨ seq = ["new"] := by
  rcases h with ⟨h1, h2⟩ | ⟨h1, h2⟩ | ⟨h1, h2⟩ | ⟨h1, h2⟩ | ⟨h1, h2⟩ |
    ⟨h1, h2⟩ | ⟨h1, h2⟩
  · exact absurd h2 (by decide)
  · exact Or.inl h1
  · exact absurd h2 (by decide)
  · exact absurd h2 (by decide)
  · exact Or.inr h1
  · exact absurd h2 (by decide)
  · exact absurd h2 (by decide)

theorem presentInv_inprogress_cases {seq : List String}
    (h : presentInv seq "in_progress") :
    seq = ["creating", "new", "in_progress"] ∨ seq = ["new", "in_progress"] := by
  rcases h with ⟨h1, h2⟩ | ⟨h1, h2⟩ | ⟨h1, h2⟩ | ⟨h1, h2⟩ | ⟨h1, h2⟩ |
    ⟨h1, h2⟩ | ⟨h1, h2⟩
  · exact absurd h2 (by decide)
  · exact absurd h2 (by decide)
  · exact Or.inl h1
  · exact absurd h2 (by decide)
  · exact absurd h2 (by decide)
  · exact Or.inr h1
  · exact absurd h2 (by decide)

theorem presentInv_accept {seq : List String} (h : presentInv seq "new") :
    presentInv (seq ++ ["in_progress"]) "in_progress" := by
  rcases presentInv_new_cases h with rfl | rfl
  · exact Or.inr (Or.inr (Or.inl ⟨rfl, rfl⟩))
  · exact Or.inr (Or.inr (Or.inr (Or.inr (Or.inr (Or.inl ⟨rfl, rfl⟩)))))

theorem presentInv_complete {seq : List String}
    (h : presentInv seq "in_progress") :
    presentInv (seq ++ ["completed"]) "completed" := by
  rcases presentInv_inprogress_cases h with rfl | rfl
  · exact Or.inr (Or.inr (Or.inr (Or.inl ⟨rfl, rfl⟩)))
  · exact Or.inr (Or.inr (Or.inr (Or.inr (Or.inr (Or.inr ⟨rfl, rfl⟩)))))

theorem pushObs_none {u : String} {s : Store} (seq : List String)
    (h : statusAt s u = none) : pushObs u seq s = seq := by
  simp [pushObs, h]

theorem pushObs_same {u st : String} {s : Store} {seq : List String}
    (h : statusAt s u = some st) (hl : seq.getLast? = some st) :
    pushObs u seq s = seq := by
  simp [pushObs, h, hl]

theorem pushObs_append {u st : String} {s : Store} {seq : List String}
    (h : statusAt s u = some st) (hl : seq.getLast? ≠ some st) :
    pushObs u seq s = seq ++ [st] := by
  simp [pushObs, h, hl]

theorem findRow_append_single_ne {u : String} (s : Store) (r : Row)
    (h : r.uuid ≠ u) : findRow (s ++ [r]) u = findRow s u := by
  cases hfs : findRow s u with
  | some x => exact findRow_append_some _ hfs
  | none =>
    rw [findRow_append_none _ hfs, findRow_cons]
    simp [h]
    rfl

theorem countRows_append_single_ne {u : String} (s : Store) (r : Row)
    (h : r.uuid ≠ u) : countRows u (s ++ [r]) = countRows u s := by
  rw [countRows_append, countRows_singleton]
  simp [h]

/-- A store change that does not touch the rows of `u` preserves the
invariant; the observation step records nothing new. -/
theorem inv_unchanged {u : String} {b : Nat} {s : Store} {seq : List String}
    (s' : Store) (hf : findRow s' u = findRow s u)
    (hc : countRows u s' = countRows u s) (h : Inv u b s seq) :
    Inv u b s' (pushObs u seq s') := by
  rcases h with ⟨hc0, hseq, hb⟩ | ⟨⟨r, hfr, hc1, hp⟩, hb⟩ | ⟨hc0, hok, hb⟩
  · have hn : findRow s' u = none := by
      rw [hf]
      exact findRow_eq_none_of_countRows_eq_zero hc0
    rw [pushObs_none seq (by simp [statusAt, hn])]
    exact Or.inl ⟨by rw [hc]; exact hc0, hseq, hb⟩
  · have hfr' : findRow s' u = some r := by rw [hf]; exact hfr
    have hst : statusAt s' u = some r.status := by simp [statusAt, hfr']
    rw [pushObs_same hst (presentInv_getLast hp)]
    exact Or.inr (Or.inl ⟨⟨r, hfr', by rw [hc]; exact hc1, hp⟩, hb⟩)
  · have hn : findRow s' u = none := by
      rw [hf]
      exact findRow_eq_none_of_countRows_eq_zero hc0
    rw [pushObs_none seq (by simp [statusAt, hn])]
    exact Or.inr (Or.inr ⟨by rw [hc]; exact hc0, hok, hb⟩)

/-- `accept_request` preserves the invariant: on a `"new"` row of `u` it
advances the trace to `in_progress`; in every other case the store is
unchanged for `u`. -/
theorem inv_accept (u v : String) (uid : Int) (un now : String) (b : Nat)
    (s : Store) (seq : List String) (h : Inv u b s seq) :
    Inv u b (acceptRequest s v uid un now).2
      (pushObs u seq (acceptRequest s v uid un now).2) := by
  cases hfv : findRow s v with
  | none =>
    have hs : (acceptRequest s v uid un now).2 = s := by
      simp [acceptRequest, hfv]
    rw [hs]
    exact inv_unchanged s rfl rfl h
  | some r =>
    by_cases hst : r.status = "new"
    · have hs : (acceptRequest s v uid un now).2 =
          modifyFirst v (acceptUpdate uid un now) s := by
        simp [acceptRequest, hfv, hst]
      rw [hs]
      by_cases hvu : v = u
      · subst hvu
        rcases h with ⟨hc0, hseq, hb0⟩ | ⟨⟨r', hfr, hc1, hp⟩, hb0⟩ |
          ⟨hc0, hok, hb0⟩
        · have hnone := findRow_eq_none_of_countRows_eq_zero hc0
          rw [hnone] at hfv
          exact Option.noConfusion hfv
        · have hrr : r' = r := by
            rw [hfr] at hfv
            exact Option.some.inj hfv
          subst hrr
          rw [hst] at hp
          have hfind2 : findRow (modifyFirst v (acceptUpdate uid un now) s) v =
              some (acceptUpdate uid un now r') :=
            findRow_modifyFirst_self _ (fun _ => rfl) hfr
          have hcnt2 : countRows v (modifyFirst v (acceptUpdate uid un now) s) = 1 := by
            rw [countRows_modifyFirst v v (acceptUpdate uid un now) s (fun _ => rfl)]
            exact hc1
          have hsa : statusAt (modifyFirst v (acceptUpdate uid un now) s) v =
              some "in_progress" := by
            simp [statusAt, hfind2, acceptUpdate]
          rw [pushObs_append hsa
            (by rw [presentInv_getLast hp]; decide)]
          exact Or.inr (Or.inl ⟨⟨acceptUpdate uid un now r', hfind2, hcnt2,
            presentInv_accept hp⟩, hb0⟩)
        · have hnone := findRow_eq_none_of_countRows_eq_zero hc0
          rw [hnone] at hfv
          exact Option.noConfusion hfv
      · exact inv_unchanged _
          (findRow_modifyFirst_ne _ _ (fun _ => rfl) hvu)
          (countRows_modifyFirst u v _ _ (fun _ => rfl)) h
    · have hs : (acceptRequest s v uid un now).2 = s := by
        simp [acceptRequest, hfv, hst]
      rw [hs]
      exact inv_unchanged s rfl rfl h

/-- `complete_request` preserves the invariant: on an `"in_progress"` row of
`u` completed by its assignee it advances the trace to `completed`; in every
other case — including the raising path of an empty assignee cell — the
store is unchanged for `u`. -/
theorem inv_complete (u v : String) (uid : Int) (now : String) (b : Nat)
    (s : Store) (seq : List String) (h : Inv u b s seq) :
    Inv u b (completeStore s v uid now)
      (pushObs u seq (completeStore s v uid now)) := by
  cases hfv : findRow s v with
  | none =>
    have hs : completeStore s v uid now = s := by
      simp [completeStore, completeRequest, hfv]
    rw [hs]
    exact inv_unchanged s rfl rfl h
  | some r =>
    cases has : r.assigneeId with
    | none =>
      have hs : completeStore s v uid now = s := by
        simp [completeStore, completeRequest, hfv, has]
      rw [hs]
      exact inv_unchanged s rfl rfl h
    | some aid =>
      by_cases hst : r.status = "in_progress"
      · by_cases haid : aid = uid
        · have hs : completeStore s v uid now =
              modifyFirst v (completeUpdate now) s := by
            simp [completeStore, completeRequest, hfv, has, hst, haid]
          rw [hs]
          by_cases hvu : v = u
          · subst hvu
            rcases h with ⟨hc0, hseq, hb0⟩ | ⟨⟨r', hfr, hc1, hp⟩, hb0⟩ |
              ⟨hc0, hok, hb0⟩
            · have hnone := findRow_eq_none_of_countRows_eq_zero hc0
              rw [hnone] at hfv
              exact Option.noConfusion hfv
            · have hrr : r' = r := by
                rw [hfr] at hfv
                exact Option.some.inj hfv
              subst hrr
              rw [hst] at hp
              have hfind2 : findRow (modifyFirst v (completeUpdate now) s) v =
                  some (completeUpdate now r') :=
                findRow_modifyFirst_self _ (fun _ => rfl) hfr
              have hcnt2 : countRows v (modifyFirst v (completeUpdate now) s) = 1 := by
                rw [countRows_modifyFirst v v (completeUpdate now) s (fun _ => rfl)]
                exact hc1
              have hsa : statusAt (modifyFirst v (completeUpdate now) s) v =
                  some "completed" := by
                simp [statusAt, hfind2, completeUpdate]
              rw [pushObs_append hsa
                (by rw [presentInv_getLast hp]; decide)]
              exact Or.inr (Or.inl ⟨⟨completeUpdate now r', hfind2, hcnt2,
                presentInv_complete hp⟩, hb0⟩)
            · have hnone := findRow_eq_none_of_countRows_eq_zero hc0
              rw [hnone] at hfv
              exact Option.noConfusion hfv
          · exact inv_unchanged _
              (findRow_modifyFirst_ne _ _ (fun _ => rfl) hvu)
              (countRows_modifyFirst u v _ _ (fun _ => rfl)) h
        · have hs : completeStore s v uid now = s := by
            simp [completeStore, completeRequest, hfv, has, hst, haid]
          rw [hs]
          exact inv_unchanged s rfl rfl h
      · have hs : completeStore s v uid now = s := by
          simp [completeStore, completeRequest, hfv, has, hst]
        rw [hs]
        exact inv_unchanged s rfl rfl h

/-- `delete_request_by_uuid` preserves the invariant: deleting `u`'s row
freezes the trace (the deleted phase); a fault or a missing row changes
nothing. -/
theorem inv_delete (u v : String) (fault : Bool) (b : Nat) (s : Store)
    (seq : List String) (h : Inv u b s seq) :
    Inv u b (deleteRequestByUuid s v fault).2
      (pushObs u seq (deleteRequestByUuid s v fault).2) := by
  cases fault with
  | true =>
    have hs : (deleteRequestByUuid s v true).2 = s := rfl
    rw [hs]
    exact inv_unchanged s rfl rfl h
  | false =>
    cases hfv : findRow s v with
    | none =>
      have hs : (deleteRequestByUuid s v false).2 = s := by
        simp [deleteRequestByUuid, hfv]
      rw [hs]
      exact inv_unchanged s rfl rfl h
    | some r =>
      have hs : (deleteRequestByUuid s v false).2 = eraseFirst v s := by
        simp [deleteRequestByUuid, hfv]
      rw [hs]
      by_cases hvu : v = u
      · subst hvu
        rcases h with ⟨hc0, hseq, hb0⟩ | ⟨⟨r', hfr, hc1, hp⟩, hb0⟩ |
          ⟨hc0, hok, hb0⟩
        · have hnone := findRow_eq_none_of_countRows_eq_zero hc0
          rw [hnone] at hfv
          exact Option.noConfusion hfv
        · have hc2 : countRows v (eraseFirst v s) = 0 := by
            rw [countRows_eraseFirst_self, hc1]
          have hn2 : findRow (eraseFirst v s) v = none :=
            findRow_eq_none_of_countRows_eq_zero hc2
          rw [pushObs_none seq (by simp [statusAt, hn2])]
          exact Or.inr (Or.inr ⟨hc2, presentInv_ok hp, hb0⟩)
        · have hnone := findRow_eq_none_of_countRows_eq_zero hc0
          rw [hnone] at hfv
          exact Option.noConfusion hfv
      · exact inv_unchanged _ (findRow_eraseFirst_ne s hvu)
          (countRows_eraseFirst_ne u v s hvu) h

/-- One operation preserves the invariant, consuming the create budget when
the operation creates `u`'s row. -/
theorem inv_step (u : String) (o : Op) (rest : List Op) (s : Store)
    (seq : List String) (h : Inv u (createsFor u (o :: rest)) s seq) :
    Inv u (createsFor u rest) (opRun s o).1
      ((opRun s o).2.foldl (pushObs u) seq) := by
  cases o with
  | acceptReq v uid un now =>
    have hb : createsFor u (Op.acceptReq v uid un now :: rest) =
        createsFor u rest := by
      simp [createsFor]
    rw [hb] at h
    simp only [opRun, List.foldl_cons, List.foldl_nil]
    exact inv_accept u v uid un now _ s seq h
  | completeReq v uid now =>
    have hb : createsFor u (Op.completeReq v uid now :: rest) =
        createsFor u rest := by
      simp [createsFor]
    rw [hb] at h
    simp only [opRun, List.foldl_cons, List.foldl_nil]
    exact inv_complete u v uid now _ s seq h
  | rollbackDelete v fault =>
    have hb : createsFor u (Op.rollbackDelete v fault :: rest) =
        createsFor u rest := by
      simp [createsFor]
    rw [hb] at h
    simp only [opRun, List.foldl_cons, List.foldl_nil]
    exact inv_delete u v fault _ s seq h
  | createWithoutPhoto q =>
    have hb : createsFor u (Op.createWithoutPhoto q :: rest) =
        (if q.uuid = u then 1 else 0) + createsFor u rest := by
      simp [createsFor]
    rw [hb] at h
    simp only [opRun, skipPhoto, createRequestRow, List.foldl_cons,
      List.foldl_nil]
    by_cases hqu : q.uuid = u
    · rw [if_pos hqu] at h
      rcases h with ⟨hc0, hseq, hb0⟩ | ⟨⟨r', hfr, hc1, hp⟩, hb0⟩ |
        ⟨hc0, hok, hb0⟩
      · subst hseq
        have hfr0 : findRow s u = none := findRow_eq_none_of_countRows_eq_zero hc0
        have hfind1 : findRow (s ++ [rowOf q "new"]) u = some (rowOf q "new") := by
          rw [findRow_append_none _ hfr0, findRow_cons]
          simp [rowOf, hqu]
        have hcnt1 : countRows u (s ++ [rowOf q "new"]) = 1 := by
          rw [countRows_append, hc0, countRows_singleton]
          simp [rowOf, hqu]
        have hsa : statusAt (s ++ [rowOf q "new"]) u = some "new" := by
          show (findRow (s ++ [rowOf q "new"]) u).map (fun r => r.status) =
            some "new"
          rw [hfind1]
          rfl
        rw [pushObs_append hsa (by simp)]
        exact Or.inr (Or.inl ⟨⟨rowOf q "new", hfind1, hcnt1,
          Or.inr (Or.inr (Or.inr (Or.inr (Or.inl ⟨rfl, rfl⟩))))⟩, by omega⟩)
      · exact absurd hb0 (by omega)
      · exact absurd hb0 (by omega)
    · rw [if_neg hqu, Nat.zero_add] at h
      have hru : (rowOf q "new").uuid ≠ u := by
        simpa [rowOf] using hqu
      exact inv_unchanged _ (findRow_append_single_ne s _ hru)
        (countRows_append_single_ne s _ hru) h
  | createWithPhoto q up df =>
    have hb : createsFor u (Op.createWithPhoto q up df :: rest) =
        (if q.uuid = u then 1 else 0) + createsFor u rest := by
      simp [createsFor]
    rw [hb] at h
    simp only [opRun, createRequestRow, List.foldl_cons, List.foldl_nil]
    by_cases hqu : q.uuid = u
    · rw [if_pos hqu] at h
      rcases h with ⟨hc0, hseq, hb0⟩ | ⟨⟨r', hfr, hc1, hp⟩, hb0⟩ |
        ⟨hc0, hok, hb0⟩
      · subst hseq
        rw [hqu]
        have hfr0 : findRow s u = none := findRow_eq_none_of_countRows_eq_zero hc0
        have hfind1 : findRow (s ++ [rowOf q "creating"]) u =
            some (rowOf q "creating") := by
          rw [findRow_append_none _ hfr0, findRow_cons]
          simp [rowOf, hqu]
        have hcnt1 : countRows u (s ++ [rowOf q "creating"]) = 1 := by
          rw [countRows_append, hc0, countRows_singleton]
          simp [rowOf, hqu]
        have hsa : statusAt (s ++ [rowOf q "creating"]) u = some "creating" := by
          show (findRow (s ++ [rowOf q "creating"]) u).map (fun r => r.status) =
            some "creating"
          rw [hfind1]
          rfl
        rw [pushObs_append hsa (by simp)]
        by_cases hup : pyTruthyStr up = true
        · rw [if_pos hup]
          have hupd : updateRequestAfterUpload (s ++ [rowOf q "creating"]) u
              (up.getD "") =
              modifyFirst u (uploadUpdate (up.getD "")) (s ++ [rowOf q "creating"]) := by
            simp [updateRequestAfterUpload, hfind1]
          rw [hupd]
          have hfind2 := findRow_modifyFirst_self (uploadUpdate (up.getD ""))
            (fun _ => rfl) hfind1
          have hcnt2 : countRows u (modifyFirst u (uploadUpdate (up.getD ""))
              (s ++ [rowOf q "creating"])) = 1 := by
            rw [countRows_modifyFirst u u (uploadUpdate (up.getD ""))
              (s ++ [rowOf q "creating"]) (fun _ => rfl)]
            exact hcnt1
          have hsa2 : statusAt (modifyFirst u (uploadUpdate (up.getD ""))
              (s ++ [rowOf q "creating"])) u = some "new" := by
            simp [statusAt, hfind2, uploadUpdate]
          rw [pushObs_append hsa2 (by decide)]
          exact Or.inr (Or.inl ⟨⟨uploadUpdate (up.getD "") (rowOf q "creating"),
            hfind2, hcnt2, Or.inr (Or.inl ⟨rfl, rfl⟩)⟩, by omega⟩)
        · rw [if_neg hup]
          cases df with
          | true =>
            have hs2 : (deleteRequestByUuid (s ++ [rowOf q "creating"]) u true).2 =
                s ++ [rowOf q "creating"] := rfl
            rw [hs2, pushObs_same hsa (by decide)]
            exact Or.inr (Or.inl ⟨⟨rowOf q "creating", hfind1, hcnt1,
              Or.inl ⟨rfl, rfl⟩⟩, by omega⟩)
          | false =>
            have hs2 : (deleteRequestByUuid (s ++ [rowOf q "creating"]) u false).2 =
                eraseFirst u (s ++ [rowOf q "creating"]) := by
              simp [deleteRequestByUuid, hfind1]
            rw [hs2]
            have hc2 : countRows u (eraseFirst u (s ++ [rowOf q "creating"])) = 0 := by
              rw [countRows_eraseFirst_self, hcnt1]
            have hn2 : findRow (eraseFirst u (s ++ [rowOf q "creating"])) u = none :=
              findRow_eq_none_of_countRows_eq_zero hc2
            rw [pushObs_none _ (by simp [statusAt, hn2])]
            exact Or.inr (Or.inr ⟨hc2,
              Or.inl ⟨["new", "in_progress", "completed"], rfl⟩, by omega⟩)
      · exact absurd hb0 (by omega)
      · exact absurd hb0 (by omega)
    · rw [if_neg hqu, Nat.zero_add] at h
      have hru : (rowOf q "creating").uuid ≠ u := by
        simpa [rowOf] using hqu
      have h1 : Inv u (createsFor u rest) (s ++ [rowOf q "creating"])
          (pushObs u seq (s ++ [rowOf q "creating"])) :=
        inv_unchanged _ (findRow_append_single_ne s _ hru)
          (countRows_append_single_ne s _ hru) h
      by_cases hup : pyTruthyStr up = true
      · rw [if_pos hup]
        cases hfq : findRow (s ++ [rowOf q "creating"]) q.uuid with
        | none =>
          have hs2 : updateRequestAfterUpload (s ++ [rowOf q "creating"]) q.uuid
              (up.getD "") = s ++ [rowOf q "creating"] := by
            simp [updateRequestAfterUpload, hfq]
          rw [hs2]
          exact inv_unchanged _ rfl rfl h1
        | some x =>
          have hs2 : updateRequestAfterUpload (s ++ [rowOf q "creating"]) q.uuid
              (up.getD "") =
              modifyFirst q.uuid (uploadUpdate (up.getD ""))
                (s ++ [rowOf q "creating"]) := by
            simp [updateRequestAfterUpload, hfq]
          rw [hs2]
          exact inv_unchanged _
            (findRow_modifyFirst_ne _ _ (fun _ => rfl) hqu)
            (countRows_modifyFirst u q.uuid (uploadUpdate (up.getD ""))
              (s ++ [rowOf q "creating"]) (fun _ => rfl)) h1
      · rw [if_neg hup]
        cases df with
        | true =>
          have hs2 : (deleteRequestByUuid (s ++ [rowOf q "creating"])
              q.uuid true).2 = s ++ [rowOf q "creating"] := rfl
          rw [hs2]
          exact inv_unchanged _ rfl rfl h1
        | false =>
          cases hfq : findRow (s ++ [rowOf q "creating"]) q.uuid with
          | none =>
            have hs2 : (deleteRequestByUuid (s ++ [rowOf q "creating"])
                q.uuid false).2 = s ++ [rowOf q "creating"] := by
              simp [deleteRequestByUuid, hfq]
            rw [hs2]
            exact inv_unchanged _ rfl rfl h1
          | some x =>
            have hs2 : (deleteRequestByUuid (s ++ [rowOf q "creating"])
                q.uuid false).2 =
                eraseFirst q.uuid (s ++ [rowOf q "creating"]) := by
              simp [deleteRequestByUuid, hfq]
            rw [hs2]
            exact inv_unchanged _ (findRow_eraseFirst_ne _ hqu)
              (countRows_eraseFirst_ne u q.uuid _ hqu) h1

/-- The invariant yields `okSeq` for the full trace. -/
theorem traceAux_okSeq (u : String) :
    ∀ (ops : List Op) (s : Store) (seq : List String),
      Inv u (createsFor u ops) s seq → okSeq (traceAux u s seq ops) := by
  intro ops
  induction ops with
  | nil =>
    intro s seq h
    simp only [traceAux]
    rcases h with ⟨-, hseq, -⟩ | ⟨⟨r, -, -, hp⟩, -⟩ | ⟨-, hok, -⟩
    · subst hseq
      exact Or.inl ⟨statusChain, rfl⟩
    · exact presentInv_ok hp
    · exact hok
  | cons o rest ih =>
    intro s seq h
    simp only [traceAux]
    exact ih _ _ (inv_step u o rest s seq h)

/-- Claim C5 (counterexample): a request created without a photo
(`skip_photo`) is appended directly with status `"new"`, so its observed
status sequence is `["new"]` — not a prefix of
`creating → new → in_progress → completed` — while the row is present, not
absent.  The claim's "prefix of the chain, or the row is absent" is
therefore false as stated. -/
theorem request_status_chain_counterexample :
    ¬ (observedStatuses "r1" [Op.createWithoutPhoto qEx] <+: statusChain ∨
       statusAt (runOps [] [Op.createWithoutPhoto qEx]) "r1" = none) := by
  intro h
  rcases h with h | h
  · have hobs : observedStatuses "r1" [Op.createWithoutPhoto qEx] = ["new"] := rfl
    rw [hobs] at h
    obtain ⟨t, ht⟩ := h
    have ht' : "new" :: t = ["creating", "new", "in_progress", "completed"] := ht
    injection ht' with h1 _
    exact absurd h1 (by decide)
  · have hst : statusAt (runOps [] [Op.createWithoutPhoto qEx]) "r1" =
        some "new" := rfl
    rw [hst] at h
    exact Option.noConfusion h

/-- Claim C5 (amended): for every request identity `u` and every sequence of
coordinator operations starting from the empty store in which `u` is created
at most once (uuids come from `uuid4()`, so a request is never re-created),
the sequence of distinct statuses observed for `u`'s row — sampled after
every guarded remote mutation — is a prefix of
`creating → new → in_progress → completed`, or a prefix of
`new → in_progress → completed` (a request committed in one step by
`skip_photo` enters the chain at `new`).  In particular no operation ever
writes a status that moves backward or skips the successor state, and no
state is re-entered; when the row is deleted or never created the sequence
simply stops growing. -/
theorem request_status_chain (u : String) (ops : List Op)
    (h : createsFor u ops ≤ 1) :
    observedStatuses u ops <+: statusChain ∨
    observedStatuses u ops <+: List.tail statusChain := by
  have hInv : Inv u (createsFor u ops) [] [] := Or.inl ⟨rfl, rfl, h⟩
  exact traceAux_okSeq u ops [] [] hInv

/-- A complete life of `qEx`: created with photo, committed, accepted by
actor 7, completed by actor 7. -/
def opsWitness : List Op :=
  [Op.createWithPhoto qEx (some "http://drive/x") false,
   Op.acceptReq "r1" 7 "TechA" "t1",
   Op.completeReq "r1" 7 "t2"]

/-- Witness for the amended C5: the full chain is traversed on `opsWitness`
and is indeed a prefix of the status chain. -/
theorem request_status_chain_witness :
    createsFor "r1" opsWitness ≤ 1 ∧
    (observedStatuses "r1" opsWitness <+: statusChain ∨
     observedStatuses "r1" opsWitness <+: List.tail statusChain) :=
  ⟨by decide, request_status_chain "r1" opsWitness (by decide)⟩

end MaintenanceBot
